import Mathlib

/-!
# Verification of the macro-market shock-transmission pipeline

A shallow embedding, in Lean, of the computational core of the
event-study repository: the return-series builder, the estimation /
event window arithmetic, the abnormal-return (AR) and cumulative
abnormal-return (CAR) engine and its fixed-horizon CAR extraction
(`src/event_study.py`), the macro-shock builder
(`src/global_linkages.py`), the bootstrap confidence interval
(`src/event_study_inference.py`), and the volatility-contrast stage
(`src/volatility_models.py`).

Trading days are modelled by their positions in the joint return index
(a `DatetimeIndex` after `sort_index`), with the date labels given by a
strictly monotone function from positions to label values.  Prices and
returns are rationals (the floating-point rounding of `numpy` is not
modelled); `Option` models both `NaN` cells and raised errors, as
noted at each definition.
-/

/-- Embedding of `logret` (`event_study.py` line 29-30) followed by the
drop of the undefined first difference (the `dropna` of line 55): the
pointwise transform `lg` stands for `np.log` (a real-valued map left
abstract), and the series of consecutive differences
`lg p[i+1] - lg p[i]` is returned.  `np.log(s).diff()` leaves `NaN` at
position 0, which `dropna` removes, so the embedded series starts at
the first defined difference. -/
def logret {α β : Type} [Sub β] (lg : α → β) (ps : List α) : List β :=
  List.zipWith (fun a b => lg a - lg b) ps.tail ps

/-- Start of the estimation window, `max(0, ev_idx - (pre_days + 21))`
(`event_study.py` line 67); truncated subtraction on `ℕ` is exactly the
`max(0, ·)` of the source. -/
def estStartIdx (evIdx preDays : ℕ) : ℕ := evIdx - (preDays + 21)

/-- End (exclusive) of the estimation window, `max(0, ev_idx - 21)`
(`event_study.py` line 68). -/
def estEndIdx (evIdx : ℕ) : ℕ := evIdx - 21

/-- Start of the event window, `max(0, ev_idx - 5)` (`event_study.py`
line 69). -/
def eventStartIdx (evIdx : ℕ) : ℕ := evIdx - 5

/-- End (inclusive) of the event window,
`min(len(all_dates)-1, ev_idx + post_days)` (`event_study.py` line 70). -/
def eventEndIdx (n evIdx postDays : ℕ) : ℕ := min (n - 1) (evIdx + postDays)

/-- The estimation window `all_dates[est_start:est_end]`
(`event_study.py` line 72), as the list of index positions of its
trading days. -/
def estWindowIdx (evIdx preDays : ℕ) : List ℕ :=
  List.range' (estStartIdx evIdx preDays) (estEndIdx evIdx - estStartIdx evIdx preDays)

/-- The event window `all_dates[event_start:event_end+1]`
(`event_study.py` line 73), as the list of index positions of its
trading days. -/
def eventWindowIdx (n evIdx postDays : ℕ) : List ℕ :=
  List.range' (eventStartIdx evIdx)
    (eventEndIdx n evIdx postDays + 1 - eventStartIdx evIdx)

/-- The trading days of the joint return index: the date label of every
valid position. -/
def tradingDays (dates : ℕ → ℕ) (n : ℕ) : List ℕ :=
  (List.range n).map dates

/-- Abnormal returns over a window (`event_study.py` lines 88-90):
`ar = re[t] - (alpha + beta * re[market])`, one value per trading day of
the window, where `retI i` and `retM i` are the ticker's and the
market's log return at index position `i` (total functions: the joint
frame was `dropna`-ed at line 55). -/
def arSeries (retI retM : ℕ → ℚ) (alpha beta : ℚ) (w : List ℕ) : List ℚ :=
  w.map (fun i => retI i - (alpha + beta * retM i))

/-- Embedding of `Series.cumsum` (`event_study.py` line 91): running
partial sums. -/
def cumsum : List ℚ → List ℚ
  | [] => []
  | a :: t => a :: (cumsum t).map (fun x => a + x)

/-- The per-ticker CAR series over the event window. -/
def carSeries (retI retM : ℕ → ℚ) (alpha beta : ℚ) (w : List ℕ) : List ℚ :=
  cumsum (arSeries retI retM alpha beta w)

/-- Embedding of the event-date alignment (`event_study.py` lines
57-61): if the requested event date is a trading day of the return
index it is kept; otherwise the first index entry on or after it is
used (`later[0]`); if there is none, the last entry of the index
(`ret.index[-1]`, `none` on an empty index, where the source would
raise). -/
def alignEvent (idx : List ℕ) (ev : ℕ) : Option ℕ :=
  if ev ∈ idx then some ev
  else
    match idx.filter (fun d => decide (ev ≤ d)) with
    | x :: _ => some x
    | [] => idx.getLast?

/-- Embedding of `fit_market_model` (`event_study.py` lines 32-36):
the least-squares normal-equation solution of
`ret_i = alpha + beta * ret_m` over the inner-joined estimation sample
(each pair is `(ticker return, market return)`).  A degenerate design
(zero denominator) yields `(…/0 = 0)` under rational division; the
claims below never inspect the numbers of a degenerate fit. -/
def fit_market_model (sample : List (ℚ × ℚ)) : ℚ × ℚ :=
  let n : ℚ := sample.length
  let sx := (sample.map (fun p => p.2)).sum
  let sy := (sample.map (fun p => p.1)).sum
  let sxx := (sample.map (fun p => p.2 * p.2)).sum
  let sxy := (sample.map (fun p => p.1 * p.2)).sum
  let beta := (n * sxy - sx * sy) / (n * sxx - sx * sx)
  ((sy - beta * sx) / n, beta)

/-- The inner-joined estimation sample of one ticker (`event_study.py`
line 82): `pd.concat([ret.loc[est_window, t], ret_m], axis=1,
join="inner").dropna()` — only the window days where both the ticker's
and the market's return are defined survive, as
`(ticker return, market return)` pairs. -/
def estSample (retT retM : ℕ → Option ℚ) (w : List ℕ) : List (ℚ × ℚ) :=
  w.filterMap (fun i => match retT i, retM i with
    | some a, some b => some (a, b)
    | _, _ => none)

/-- One row of the event-study summary table (`event_study.py` lines
102-103); the two fixed-horizon CAR snapshots are `Option`-valued:
`none` stands for the `np.nan` of an empty CAR series (and for the
index error a mis-clamped lookup would raise, which never happens). -/
structure SummaryRow where
  ticker : ℕ
  alpha : ℚ
  beta : ℚ
  car_k1 : Option ℚ
  car_k2 : Option ℚ
deriving DecidableEq

/-- One row of the AR/CAR panel (`event_study.py` line 93). -/
structure PanelEntry where
  date : ℕ
  ticker : ℕ
  ar : ℚ
  car : ℚ
deriving DecidableEq

/-- The fixed-horizon CAR lookup on a date-indexed CAR series
(`event_study.py` lines 99-100): the last CAR value whose date is at or
before the clamp date, `none` when no such value exists (the
`.iloc[-1]` index error). -/
def kCarOf (pairs : List (ℕ × ℚ)) (kDate : ℕ) : Option ℚ :=
  ((pairs.filter (fun p => decide (p.1 ≤ kDate))).getLast?).map (fun p => p.2)

/-- One pass of the per-ticker loop of `main` (`event_study.py` lines
80-103): `none` exactly when the ticker's inner-joined estimation
sample is empty (the `continue` of lines 83-84); otherwise the fitted
market model is applied to the joined event window, AR and CAR are
computed, and the ticker's summary row and panel block are returned. -/
def processTicker (dates : ℕ → ℕ) (ret : ℕ → ℕ → Option ℚ)
    (retM : ℕ → Option ℚ) (n evIdx preDays postDays k1 k2 : ℕ) (t : ℕ) :
    Option (SummaryRow × List PanelEntry) :=
  let mm := estSample (ret t) retM (estWindowIdx evIdx preDays)
  if mm = [] then none
  else
    let ab := fit_market_model mm
    let joined := (eventWindowIdx n evIdx postDays).filterMap
      (fun i => match ret t i, retM i with
        | some a, some b => some (i, a, b)
        | _, _ => none)
    let ar := joined.map (fun x => x.2.1 - (ab.1 + ab.2 * x.2.2))
    let car := cumsum ar
    let pairs := (joined.map (fun x => dates x.1)).zip car
    let panel := (joined.zip (ar.zip car)).map
      (fun x => { date := dates x.1.1, ticker := t, ar := x.2.1, car := x.2.2 : PanelEntry })
    let k1Car := if pairs = [] then none
      else kCarOf pairs (dates (min (evIdx + k1) (n - 1)))
    let k2Car := if pairs = [] then none
      else kCarOf pairs (dates (min (evIdx + k2) (n - 1)))
    some ({ ticker := t, alpha := ab.1, beta := ab.2,
            car_k1 := k1Car, car_k2 := k2Car }, panel)

/-- The whole per-ticker loop (`event_study.py` lines 77-106): the
summary rows and the concatenated panel blocks of the tickers whose
estimation sample is non-empty, in ticker order.  (The final
`sort_values` of line 105 permutes summary rows only and is not
modelled.) -/
def processAll (dates : ℕ → ℕ) (ret : ℕ → ℕ → Option ℚ)
    (retM : ℕ → Option ℚ) (n evIdx preDays postDays k1 k2 : ℕ)
    (tickers : List ℕ) : List SummaryRow × List PanelEntry :=
  let results := tickers.filterMap
    (processTicker dates ret retM n evIdx preDays postDays k1 k2)
  (results.map (fun r => r.1), (results.map (fun r => r.2)).flatten)

/-- The per-ticker CAR series of the event window, indexed by its date
labels, in the post-`dropna` regime of `event_study.py` line 55 where
both return series are total on the joint index. -/
def carPairs (dates : ℕ → ℕ) (retI retM : ℕ → ℚ) (alpha beta : ℚ)
    (n evIdx postDays : ℕ) : List (ℕ × ℚ) :=
  ((eventWindowIdx n evIdx postDays).map dates).zip
    (carSeries retI retM alpha beta (eventWindowIdx n evIdx postDays))

/-- The fixed-horizon CAR extraction of `main` (`event_study.py` lines
96-100): clamp `ev_idx + k` to the last position of the joint index,
take its date label, and read the last CAR value dated at or before it;
`none` models both the `np.nan` of an empty CAR series and the
`.iloc[-1]` index error on an empty selection. -/
def kHorizonCAR (dates : ℕ → ℕ) (retI retM : ℕ → ℚ) (alpha beta : ℚ)
    (n evIdx postDays k : ℕ) : Option ℚ :=
  let pairs := carPairs dates retI retM alpha beta n evIdx postDays
  if pairs = [] then none
  else kCarOf pairs (dates (min (evIdx + k) (n - 1)))

/-- Arithmetic mean of a rational series, `pandas`/`numpy` `mean` on a
non-empty series; on an empty list the rational convention `x / 0 = 0`
applies (the sources guard every use against emptiness). -/
def mean (l : List ℚ) : ℚ := l.sum / (l.length : ℚ)

/-- Stable insertion of an element into a list sorted by a natural
key. -/
def insertKey {α : Type} (key : α → ℕ) (x : α) : List α → List α
  | [] => [x]
  | h :: t => if key h ≤ key x then h :: insertKey key x t else x :: h :: t

/-- Insertion sort by a natural key, the embedding of `sort_index` /
`sort_values` on date-keyed frames. -/
def sortByKey {α : Type} (key : α → ℕ) (l : List α) : List α :=
  l.foldr (insertKey key) []

/-- One row of `merged_market_daily.csv` as consumed by the macro-shock
builder (`global_linkages.py` lines 80-96): the date label and the
three macro close series `BZ=F`, `^VIX`, `INR=X`.  Cell values are
total here: the zero-observation claim concerns empty windows, not
missing cells. -/
structure MarketRow where
  date : ℕ
  bz : ℚ
  vix : ℚ
  inr : ℚ
deriving DecidableEq

/-- The pre-event averaging window of `compute_macro_shocks`
(`global_linkages.py` line 86): the last `k_pre` rows dated strictly
before the event among the date-sorted merged rows
(`merged.loc[merged.index < event_dt].tail(k_pre)`). -/
def preWindow (rows : List MarketRow) (ev kPre : ℕ) : List MarketRow :=
  let pre := (sortByKey (fun r => r.date) rows).filter
    (fun r => decide (r.date < ev))
  pre.drop (pre.length - kPre)

/-- The post-event averaging window of `compute_macro_shocks`
(`global_linkages.py` line 87): the first `k_post` rows dated on or
after the event (`merged.loc[merged.index >= event_dt].head(k_post)`). -/
def postWindow (rows : List MarketRow) (ev kPost : ℕ) : List MarketRow :=
  ((sortByKey (fun r => r.date) rows).filter
    (fun r => decide (ev ≤ r.date))).take kPost

/-- Embedding of `compute_macro_shocks` (`global_linkages.py` lines
74-96): `none` embeds the `SystemExit` raised when either averaging
window is empty; otherwise each macro series' shock is
`(post mean - pre mean) / pre mean`, returned as the
`(brent, vix, inr)` triple. -/
def computeGlobalShocks (rows : List MarketRow) (ev kPre kPost : ℕ) :
    Option (ℚ × ℚ × ℚ) :=
  let pre := preWindow rows ev kPre
  let post := postWindow rows ev kPost
  if pre = [] ∨ post = [] then none
  else
    let shock := fun (f : MarketRow → ℚ) =>
      (mean (post.map f) - mean (pre.map f)) / mean (pre.map f)
    some (shock (fun r => r.bz), shock (fun r => r.vix),
      shock (fun r => r.inr))

/-- Stable insertion into an ascending list of rationals. -/
def insertQ (x : ℚ) : List ℚ → List ℚ
  | [] => [x]
  | h :: t => if h ≤ x then h :: insertQ x t else x :: h :: t

/-- Ascending insertion sort on rationals (the internal sort of
`np.percentile`). -/
def sortQ (l : List ℚ) : List ℚ := l.foldr insertQ []

/-- `np.percentile` with the default linear interpolation: for `q`
percent over `n` sorted values, the value at fractional position
`q/100 * (n-1)`, interpolated between its floor and ceiling
neighbours; `0` on an empty list (the source never reaches that
case). -/
def percentile (l : List ℚ) (q : ℚ) : ℚ :=
  let s := sortQ l
  let n := s.length
  if n = 0 then 0
  else
    let pos := q / 100 * ((n : ℚ) - 1)
    let i := (⌊pos⌋).toNat
    let g := pos - (⌊pos⌋ : ℚ)
    let a := s.getD i 0
    let b := s.getD (min (i + 1) (n - 1)) 0
    a + g * (b - a)

/-- `k` successive draws from an abstract pseudo-random generator
(`rng.choice(data, len(data), replace=True)` draws `len(data)` indices
below `n`): the list of drawn indices and the advanced generator
state. -/
def drawIndices {G : Type} (draw : G → ℕ → ℕ × G) (g : G) (n : ℕ) :
    ℕ → List ℕ × G
  | 0 => ([], g)
  | k + 1 =>
    let d := draw g n
    let rest := drawIndices draw d.2 n k
    (d.1 :: rest.1, rest.2)

/-- The list of bootstrap resample means (`event_study_inference.py`
line 165): `nBoot` resamples of `data` with replacement, each reduced
to its mean, threading the generator state through the comprehension. -/
def bootMeans {G : Type} (draw : G → ℕ → ℕ × G) (data : List ℚ) :
    ℕ → G → List ℚ
  | 0, _ => []
  | b + 1, g =>
    let s := drawIndices draw g data.length data.length
    mean (s.1.map (fun i => data.getD i 0)) :: bootMeans draw data b s.2

/-- Embedding of `bootstrap_ci` (`event_study_inference.py` lines
160-168).  `gGlobal` is the ambient random state the interpreter
carries into the call; the source never reads it — line 161 constructs
a fresh generator from the fixed `seed` (`np.random.default_rng(seed)`,
modelled by the abstract `init`) — which is what the reproducibility
claim rests on.  `none` embeds the `(nan, nan, nan)` return on empty
data; otherwise the data mean and the two percentile bounds of the
resample-mean distribution are returned. -/
def bootstrap_ci {G : Type} (gGlobal : G) (init : ℕ → G)
    (draw : G → ℕ → ℕ × G) (data : List (Option ℚ)) (nBoot : ℕ) (ci : ℚ)
    (seed : ℕ) : Option (ℚ × ℚ × ℚ) :=
  let rng := init seed
  let d := data.filterMap id
  if d = [] then none
  else
    let means := bootMeans draw d nBoot rng
    let lower := percentile means ((100 - ci) / 2)
    let upper := percentile means (100 - (100 - ci) / 2)
    some (mean d, lower, upper)

/-- One row of the AR panel as read back by the volatility stage
(`event_study_panel_{date}.csv`, `volatility_models.py` lines 76-102):
date, ticker and the abnormal return — `none` for a missing `ar` cell,
dropped by the `dropna(subset=[ar_col])` of line 102. -/
structure ArRow where
  date : ℕ
  ticker : ℕ
  ar : Option ℚ
deriving DecidableEq

/-- One row of `volatility_summary_{date}.csv` (`volatility_models.py`
lines 123-130).  The record carries no quality flag — only the sigma
numbers and static metadata. -/
structure VolRow where
  ticker : ℕ
  sector : Option ℕ
  exposure_group : ℕ
  pre_mean_sigma : ℚ
  post_mean_sigma : ℚ
  delta_sigma : ℚ
deriving DecidableEq

/-- Sample variance with `ddof=1`, the inside of the
`np.std(returns.values, ddof=1)` fallback of
`estimate_garch_sigma_mean`. -/
def sampleVar (l : List ℚ) : ℚ :=
  let m := mean l
  ((l.map (fun x => (x - m) * (x - m))).sum) / ((l.length : ℚ) - 1)

/-- The standard-deviation fallback estimator: `sqrtA` threads the
square root as an abstract map (floating-point square root is not
modelled; no claim below depends on its values). -/
def sampleStd (sqrtA : ℚ → ℚ) (l : List ℚ) : ℚ := sqrtA (sampleVar l)

/-- Embedding of `estimate_garch_sigma_mean` (`volatility_models.py`
lines 47-61): `archFit` stands for the external `arch` GARCH(1,1) fit
returning the mean conditional volatility, `none` when the library is
unavailable or the fit raises; on `none` the sample standard deviation
(ddof 1) of the segment is substituted and the ok-flag is `false`. -/
def estimate_garch_sigma_mean (archFit : List ℚ → Option ℚ)
    (sqrtA : ℚ → ℚ) (returns : List ℚ) : ℚ × Bool :=
  match archFit returns with
  | some s => (s, true)
  | none => (sampleStd sqrtA returns, false)

/-- The AR panel after dropping rows with a missing abnormal return
(`volatility_models.py` line 102), as `(date, ticker, ar)` triples. -/
def dropnaAr (panel : List ArRow) : List (ℕ × ℕ × ℚ) :=
  panel.filterMap (fun r => r.ar.map (fun a => (r.date, r.ticker, a)))

/-- The tickers of the panel (the `groupby` keys of
`volatility_models.py` line 112; the enumeration order of `groupby` is
not modelled — only the underlying set matters to the claims). -/
def panelTickers (panel : List ArRow) : List ℕ :=
  ((dropnaAr panel).map (fun x => x.2.1)).dedup

/-- A ticker's panel rows sorted by date (`g.sort_values(date_col)` of
`volatility_models.py` line 113). -/
def tickerRows (panel : List ArRow) (t : ℕ) : List (ℕ × ℕ × ℚ) :=
  sortByKey (fun x => x.1)
    ((dropnaAr panel).filter (fun x => decide (x.2.1 = t)))

/-- A ticker's observations strictly before the event date
(`volatility_models.py` line 114). -/
def preObs (panel : List ArRow) (ev t : ℕ) : List (ℕ × ℕ × ℚ) :=
  (tickerRows panel t).filter (fun x => decide (x.1 < ev))

/-- A ticker's observations on or after the event date
(`volatility_models.py` line 115). -/
def postObs (panel : List ArRow) (ev t : ℕ) : List (ℕ × ℕ × ℚ) :=
  (tickerRows panel t).filter (fun x => decide (ev ≤ x.1))

/-- One pass of the volatility loop (`volatility_models.py` lines
112-130): `none` — the `continue` of line 117 — when the ticker has
fewer than 5 pre-event or fewer than 5 post-event observations;
otherwise the volatility estimates of both segments, the summary row,
and the conjunction of the two ok-flags (the contribution to
`used_garch_any` at line 121).  `meta` is the sector lookup of the
merged `ticker_sectors.csv` metadata (lines 84-99, a left merge on a
deduplicated ticker key), `expo` the exposure-group lookup. -/
def processVolTicker (archFit : List ℚ → Option ℚ) (sqrtA : ℚ → ℚ)
    (meta : ℕ → Option ℕ) (expo : ℕ → ℕ) (panel : List ArRow) (ev t : ℕ) :
    Option (VolRow × Bool) :=
  if (preObs panel ev t).length < 5 ∨ (postObs panel ev t).length < 5 then
    none
  else
    let p1 := estimate_garch_sigma_mean archFit sqrtA
      ((preObs panel ev t).map (fun x => x.2.2))
    let p2 := estimate_garch_sigma_mean archFit sqrtA
      ((postObs panel ev t).map (fun x => x.2.2))
    some ({ ticker := t, sector := meta t, exposure_group := expo t,
            pre_mean_sigma := p1.1, post_mean_sigma := p2.1,
            delta_sigma := p2.1 - p1.1 }, p1.2 && p2.2)

/-- The volatility loop over all tickers (`volatility_models.py` lines
109-131): the emitted summary rows and the `used_garch_any` flag
(whether some emitted ticker had both segment fits succeed). -/
def volRows (archFit : List ℚ → Option ℚ) (sqrtA : ℚ → ℚ)
    (meta : ℕ → Option ℕ) (expo : ℕ → ℕ) (panel : List ArRow) (ev : ℕ) :
    List VolRow × Bool :=
  let results := (panelTickers panel).filterMap
    (processVolTicker archFit sqrtA meta expo panel ev)
  (results.map (fun r => r.1), results.any (fun r => r.2))

/-- The volatility-summary stage outcome (`volatility_models.py` lines
132-143): `none` embeds the `SystemExit` raised when no ticker had
enough pre/post observations — nothing is written — and otherwise the
rows written to `volatility_summary_{date}.csv`. -/
def volSummary (archFit : List ℚ → Option ℚ) (sqrtA : ℚ → ℚ)
    (meta : ℕ → Option ℕ) (expo : ℕ → ℕ) (panel : List ArRow) (ev : ℕ) :
    Option (List VolRow) :=
  let rows := (volRows archFit sqrtA meta expo panel ev).1
  if rows = [] then none else some rows

/-- A small concrete AR panel used by the concrete-input theorems:
one ticker with five observations strictly before day 10 and five on
or after it. -/
def samplePanel : List ArRow :=
  [⟨0, 1, some 1⟩, ⟨1, 1, some 1⟩, ⟨2, 1, some 1⟩, ⟨3, 1, some 1⟩,
   ⟨4, 1, some 1⟩, ⟨10, 1, some 2⟩, ⟨11, 1, some 2⟩, ⟨12, 1, some 2⟩,
   ⟨13, 1, some 2⟩, ⟨14, 1, some 2⟩]

/-! ## Helper lemmas -/

theorem filter_head_min (idx : List ℕ) (ev : ℕ) (hs : idx.Sorted (· < ·))
    (x : ℕ) (rest : List ℕ)
    (hf : idx.filter (fun d => decide (ev ≤ d)) = x :: rest) :
    x ∈ idx ∧ ev ≤ x ∧ ∀ e ∈ idx, ev ≤ e → x ≤ e := by
  have hx : x ∈ idx.filter (fun d => decide (ev ≤ d)) := by
    rw [hf]; exact List.mem_cons_self x rest
  have hmem := List.mem_filter.mp hx
  refine ⟨hmem.1, by simpa using hmem.2, ?_⟩
  intro e he hev
  have hef : e ∈ idx.filter (fun d => decide (ev ≤ d)) :=
    List.mem_filter.mpr ⟨he, by simpa⟩
  rw [hf] at hef
  rcases List.mem_cons.mp hef with rfl | hrest
  · exact le_refl e
  · have hps : (idx.filter (fun d => decide (ev ≤ d))).Sorted (· < ·) :=
      List.Pairwise.filter _ hs
    rw [hf] at hps
    exact le_of_lt (List.rel_of_sorted_cons hps e hrest)

theorem cumsum_length (l : List ℚ) : (cumsum l).length = l.length := by
  induction l with
  | nil => rfl
  | cons a t ih => simp [cumsum, ih]

theorem cumsum_get (l : List ℚ) (j : ℕ) (h : j < (cumsum l).length) :
    (cumsum l).get ⟨j, h⟩ = ((l.take (j + 1)).sum) := by
  induction l generalizing j with
  | nil => simp [cumsum] at h
  | cons a t ih =>
    cases j with
    | zero => simp [cumsum]
    | succ j =>
      have h' : j < (cumsum t).length := by
        simpa [cumsum] using Nat.lt_of_succ_lt_succ h
      simp [cumsum, List.get_cons_succ, List.take_succ_cons, List.sum_cons]
      simpa using ih j h'

theorem cumsum_get_zero (l : List ℚ) (h : 0 < (cumsum l).length) :
    (cumsum l).get ⟨0, h⟩ = l.get ⟨0, by simpa [cumsum_length] using h⟩ := by
  cases l with
  | nil => simp [cumsum] at h
  | cons a t => rfl

theorem cumsum_getElem? (l : List ℚ) (j : ℕ) (h : j < l.length) :
    (cumsum l)[j]? = some ((l.take (j + 1)).sum) := by
  have h2 : j < (cumsum l).length := by rw [cumsum_length]; exact h
  rw [List.getElem?_eq_getElem h2]
  exact congrArg some (by simpa using cumsum_get l j h2)

theorem carSeries_length (retI retM : ℕ → ℚ) (alpha beta : ℚ) (w : List ℕ) :
    (carSeries retI retM alpha beta w).length = w.length := by
  simp [carSeries, cumsum_length, arSeries]

theorem filter_zip_range'_le (m : ℕ) :
    ∀ (L s : ℕ) (vs : List ℚ),
      ((List.range' s L).zip vs).filter (fun p => decide (p.1 ≤ m)) =
        ((List.range' s L).zip vs).take (m + 1 - s) := by
  intro L
  induction L with
  | zero =>
    intro s vs
    simp
  | succ L ih =>
    intro s vs
    cases vs with
    | nil => simp
    | cons v vs =>
      rw [List.range'_succ, List.zip_cons_cons, List.filter_cons]
      by_cases hsm : s ≤ m
      · have h1 : m + 1 - s = (m - s) + 1 := by omega
        have h2 : m + 1 - (s + 1) = m - s := by omega
        rw [if_pos (decide_eq_true hsm), ih (s + 1) vs, h2, h1,
          List.take_succ_cons]
      · have h1 : m + 1 - s = 0 := by omega
        have h2 : m + 1 - (s + 1) = 0 := by omega
        rw [if_neg (by simpa using hsm), ih (s + 1) vs, h2, h1,
          List.take_zero, List.take_zero]

theorem getLast?_take_pos {α : Type} (l : List α) (j : ℕ) (hj : 0 < j) :
    (l.take j).getLast? = l[min j l.length - 1]? := by
  rw [List.getLast?_eq_getElem?, List.length_take]
  exact List.getElem?_take_of_lt (by omega)

theorem getElem?_zip_snd :
    ∀ (l1 : List ℕ) (l2 : List ℚ) (i : ℕ), l2.length ≤ l1.length →
      (((l1.zip l2)[i]?).map (fun p => p.2)) = l2[i]? := by
  intro l1
  induction l1 with
  | nil =>
    intro l2 i h
    have : l2 = [] := List.length_eq_zero.mp (by simpa using h)
    subst this
    simp
  | cons a t ih =>
    intro l2 i h
    cases l2 with
    | nil => simp
    | cons b t2 =>
      cases i with
      | zero => simp
      | succ j => simpa using ih t2 j (by simpa using h)

theorem kCarOf_zip_range' (dates : ℕ → ℕ) (hmono : StrictMono dates)
    (s L mp : ℕ) (vs : List ℚ) (hL : vs.length = L) (hsm : s ≤ mp) :
    kCarOf (((List.range' s L).map dates).zip vs) (dates mp) =
      vs[min (mp + 1 - s) L - 1]? := by
  rw [kCarOf, List.zip_map_left, List.filter_map]
  have hpred : ((fun p : ℕ × ℚ => decide (p.1 ≤ dates mp)) ∘ Prod.map dates id) =
      (fun p : ℕ × ℚ => decide (p.1 ≤ mp)) := by
    funext p
    simp [Prod.map, hmono.le_iff_le]
  rw [hpred, filter_zip_range'_le mp L s vs, List.getLast?_map,
    getLast?_take_pos _ _ (by omega)]
  have hlz : ((List.range' s L).zip vs).length = L := by
    rw [List.length_zip, List.length_range', hL, Nat.min_self]
  rw [hlz, Option.map_map]
  have hsnd : ((fun p : ℕ × ℚ => p.2) ∘ Prod.map dates id) =
      (fun p : ℕ × ℚ => p.2) := by
    funext p
    simp [Prod.map]
  rw [hsnd]
  exact getElem?_zip_snd _ vs _ (by rw [List.length_range', hL])

/-! ## Claim theorems -/

/-- C6: for every price series, the derived return series is the
log-difference of consecutive prices with the undefined first
observation dropped: its length is the price series' length minus 1,
and its entry at position `i` equals `lg ps[i+1] - lg ps[i]`. -/
theorem logret_spec {α β : Type} [Sub β] (lg : α → β) (ps : List α) :
    (logret lg ps).length = ps.length - 1 ∧
    ∀ (i : ℕ) (hi : i + 1 < ps.length),
      (logret lg ps)[i]? =
        some (lg (ps.get ⟨i + 1, hi⟩) - lg (ps.get ⟨i, Nat.lt_of_succ_lt hi⟩)) := by
  constructor
  · simp [logret]
  · intro i hi
    have hlen : i < (List.zipWith (fun a b => lg a - lg b) ps.tail ps).length := by
      simp [List.length_zipWith]; omega
    rw [logret, List.getElem?_eq_getElem hlen, List.getElem_zipWith]
    cases ps with
    | nil => simp at hi
    | cons a t => simp

/-- Witness for C6 at a concrete price series over `ℚ` with the
identity in place of the abstract pointwise log. -/
theorem logret_spec_witness :
    1 + 1 < ([4, 9, 25, 36] : List ℚ).length ∧
    (logret (fun x => x) ([4, 9, 25, 36] : List ℚ))[1]? =
      some (([4, 9, 25, 36] : List ℚ).get ⟨2, by decide⟩ -
        ([4, 9, 25, 36] : List ℚ).get ⟨1, by decide⟩) :=
  ⟨by decide, (logret_spec (fun x => x) [4, 9, 25, 36]).2 1 (by decide)⟩

/-- C1: for every day of a ticker's joined event window, the reported
car value equals the sum of the ticker's ar values over the
event-window days up to and including that day; in particular car on
the first event-window day equals ar on that day. -/
theorem car_running_sum (retI retM : ℕ → ℚ) (alpha beta : ℚ) (w : List ℕ) :
    (∀ (j : ℕ) (h : j < (carSeries retI retM alpha beta w).length),
      (carSeries retI retM alpha beta w).get ⟨j, h⟩ =
        ((arSeries retI retM alpha beta w).take (j + 1)).sum) ∧
    (∀ (h : 0 < (carSeries retI retM alpha beta w).length),
      (carSeries retI retM alpha beta w).get ⟨0, h⟩ =
        (arSeries retI retM alpha beta w).get
          ⟨0, by simpa [carSeries, cumsum_length] using h⟩) := by
  constructor
  · intro j h
    exact cumsum_get (arSeries retI retM alpha beta w) j h
  · intro h
    exact cumsum_get_zero (arSeries retI retM alpha beta w) h

/-- C3 counterexample: the claim that every estimation-window day lies
strictly before the event window's start minus the 21-trading-day gap
fails on the code: with `ev_idx = 100` and `pre_days = 120` the
estimation window is positions `0..78` while the event window starts at
position `95`, and `78` is not strictly before `95 - 21 = 74`. -/
theorem est_window_gap_counterexample :
    ¬ ∀ d ∈ estWindowIdx 100 120, d + 21 < eventStartIdx 100 := by decide

/-- C3 amended: the estimation window ends 21 trading days before the
event date (every estimation day `d` has `d + 21 < ev_idx`), hence lies
strictly before the event window's start — though not before the start
minus the gap — and both the estimation window and the event window
consist only of trading days present in the joint return index. -/
theorem est_window_separation (n evIdx preDays postDays : ℕ) (hev : evIdx < n)
    (dates : ℕ → ℕ) :
    (∀ d ∈ estWindowIdx evIdx preDays,
      d + 21 < evIdx ∧ d < eventStartIdx evIdx ∧ dates d ∈ tradingDays dates n) ∧
    (∀ d ∈ eventWindowIdx n evIdx postDays,
      d < n ∧ dates d ∈ tradingDays dates n) := by
  constructor
  · intro d hd
    rw [estWindowIdx, List.mem_range'_1] at hd
    have hb : d + 21 < evIdx := by
      rw [estStartIdx, estEndIdx] at hd
      omega
    refine ⟨hb, ?_, ?_⟩
    · rw [eventStartIdx]; omega
    · exact List.mem_map_of_mem dates (List.mem_range.mpr (by omega))
  · intro d hd
    rw [eventWindowIdx, List.mem_range'_1] at hd
    have hb : d < n := by
      rw [eventStartIdx, eventEndIdx] at hd
      omega
    exact ⟨hb, List.mem_map_of_mem dates (List.mem_range.mpr hb)⟩

/-- Witness for the amended C3 at a concrete window configuration. -/
theorem est_window_separation_witness :
    100 < 200 ∧
    ∀ d ∈ estWindowIdx 100 120,
      d + 21 < 100 ∧ d < eventStartIdx 100 ∧
        (fun i => i) d ∈ tradingDays (fun i => i) 200 :=
  ⟨by decide, (est_window_separation 200 100 120 20 (by decide) (fun i => i)).1⟩

/-- C4 counterexample: the degenerate alignment case (no trading day on
or after the requested event date) is not flagged by the code: the
engine's only output is the aligned date itself, and a degenerate call
is indistinguishable from a normal exact-hit alignment to the same day
— here `alignEvent [1,2,3] 5`, where every trading day lies strictly
before the requested date, coincides with `alignEvent [1,2,3] 3`, a
plain on-index alignment. -/
theorem align_event_no_flag_counterexample :
    (∀ d ∈ ([1, 2, 3] : List ℕ), d < 5) ∧ (3 : ℕ) ∈ ([1, 2, 3] : List ℕ) ∧
      alignEvent [1, 2, 3] 5 = alignEvent [1, 2, 3] 3 := by decide

/-- C4 amended: when the requested event date is not a trading day in
the return index, the engine uses the first trading day on or after it;
when no trading day on or after it exists, it uses the last trading day
of the index and does not fail — but it emits no flag marking the
degenerate case. -/
theorem align_event_spec (idx : List ℕ) (ev : ℕ) (hne : idx ≠ [])
    (hs : idx.Sorted (· < ·)) :
    (alignEvent idx ev).isSome = true ∧
    (ev ∈ idx → alignEvent idx ev = some ev) ∧
    ((∃ d ∈ idx, ev ≤ d) → ∃ d, alignEvent idx ev = some d ∧ d ∈ idx ∧ ev ≤ d ∧
      ∀ e ∈ idx, ev ≤ e → d ≤ e) ∧
    ((∀ d ∈ idx, d < ev) → alignEvent idx ev = idx.getLast?) := by
  refine ⟨?_, ?_, ?_, ?_⟩
  · rw [alignEvent]
    split
    · rfl
    · split
      · rfl
      · simp [List.getLast?_eq_getLast_of_ne_nil hne]
  · intro h
    rw [alignEvent, if_pos h]
  · rintro ⟨d, hd, hde⟩
    by_cases hmem : ev ∈ idx
    · exact ⟨ev, by rw [alignEvent, if_pos hmem], hmem, le_refl ev,
        fun e he h => h⟩
    · cases hf : idx.filter (fun d => decide (ev ≤ d)) with
      | nil =>
        exfalso
        have : d ∈ idx.filter (fun d => decide (ev ≤ d)) :=
          List.mem_filter.mpr ⟨hd, by simpa⟩
        rw [hf] at this
        simp at this
      | cons x rest =>
        obtain ⟨hx1, hx2, hx3⟩ := filter_head_min idx ev hs x rest hf
        refine ⟨x, ?_, hx1, hx2, hx3⟩
        rw [alignEvent, if_neg hmem, hf]
  · intro hall
    have hmem : ev ∉ idx := fun h => absurd (hall ev h) (lt_irrefl ev)
    have hf : idx.filter (fun d => decide (ev ≤ d)) = [] := by
      apply List.filter_eq_nil_iff.mpr
      intro a ha
      simpa using Nat.not_le.mpr (hall a ha)
    rw [alignEvent, if_neg hmem, hf]

/-- Witness for the amended C4 at a concrete index and event date. -/
theorem align_event_spec_witness :
    ([10, 20, 30] : List ℕ) ≠ [] ∧
      (alignEvent [10, 20, 30] 15).isSome = true :=
  ⟨by decide, (align_event_spec [10, 20, 30] 15 (by decide) (by decide)).1⟩

/-- C2: the fixed-horizon CAR at offset `k` is `some` value — never an
out-of-range index — and equals the ticker's cumulative abnormal
return at the last event-window trading day at or before position
`ev_idx + k` (clamped to the end of the joint index): the sum of the
abnormal returns over the event window up to
`min (ev_idx + k) event_end`; in particular when `k` runs past the
available window the value clamps to the CAR at the last available
trading day. -/
theorem kHorizonCAR_spec (dates : ℕ → ℕ) (hmono : StrictMono dates)
    (retI retM : ℕ → ℚ) (alpha beta : ℚ) (n evIdx postDays k : ℕ)
    (hev : evIdx < n) :
    kHorizonCAR dates retI retM alpha beta n evIdx postDays k =
      some (((arSeries retI retM alpha beta
          (eventWindowIdx n evIdx postDays)).take
        (min (evIdx + k) (eventEndIdx n evIdx postDays) + 1 -
          eventStartIdx evIdx)).sum) := by
  have hse : eventStartIdx evIdx ≤ evIdx := by rw [eventStartIdx]; omega
  have hee : evIdx ≤ eventEndIdx n evIdx postDays := by
    rw [eventEndIdx]; omega
  have hen : eventEndIdx n evIdx postDays ≤ n - 1 := by
    rw [eventEndIdx]; omega
  have hsm : eventStartIdx evIdx ≤ min (evIdx + k) (n - 1) := by omega
  have hveclen :
      (carSeries retI retM alpha beta (eventWindowIdx n evIdx postDays)).length
        = eventEndIdx n evIdx postDays + 1 - eventStartIdx evIdx := by
    rw [carSeries_length, eventWindowIdx, List.length_range']
  have hwin : eventWindowIdx n evIdx postDays =
      List.range' (eventStartIdx evIdx)
        (eventEndIdx n evIdx postDays + 1 - eventStartIdx evIdx) := by
    rw [eventWindowIdx]
  have hpne : carPairs dates retI retM alpha beta n evIdx postDays ≠ [] := by
    intro h0
    have hlen0 : (carPairs dates retI retM alpha beta n evIdx postDays).length
        = 0 := by rw [h0]; rfl
    rw [carPairs, List.length_zip, List.length_map, hveclen, hwin,
      List.length_range', Nat.min_self] at hlen0
    omega
  simp only [kHorizonCAR]
  rw [if_neg hpne, carPairs, hwin,
    kCarOf_zip_range' dates hmono _ _ _ _
      (by rw [← hwin, hveclen]) hsm]
  have hidx : min (min (evIdx + k) (n - 1) + 1 - eventStartIdx evIdx)
        (eventEndIdx n evIdx postDays + 1 - eventStartIdx evIdx) - 1 =
      min (evIdx + k) (eventEndIdx n evIdx postDays) - eventStartIdx evIdx := by
    omega
  rw [hidx]
  have hTlt : min (evIdx + k) (eventEndIdx n evIdx postDays) -
      eventStartIdx evIdx <
      (arSeries retI retM alpha beta
        (List.range' (eventStartIdx evIdx)
          (eventEndIdx n evIdx postDays + 1 - eventStartIdx evIdx))).length := by
    rw [arSeries, List.length_map, List.length_range']
    omega
  have htake : min (evIdx + k) (eventEndIdx n evIdx postDays) -
      eventStartIdx evIdx + 1 =
      min (evIdx + k) (eventEndIdx n evIdx postDays) + 1 -
        eventStartIdx evIdx := by
    omega
  simp only [carSeries]
  rw [cumsum_getElem? _ _ hTlt, htake]

/-- Witness for C2 at a concrete configuration where the horizon runs
past both the event window and the joint index, exercising the clamp. -/
theorem kHorizonCAR_spec_witness :
    10 < 30 ∧
    kHorizonCAR (fun i => i) (fun i => (i : ℚ)) (fun _ => (1 : ℚ)) 2 3 30 10 4 20 =
      some (((arSeries (fun i => (i : ℚ)) (fun _ => (1 : ℚ)) 2 3
          (eventWindowIdx 30 10 4)).take
        (min (10 + 20) (eventEndIdx 30 10 4) + 1 - eventStartIdx 10)).sum) :=
  ⟨by decide,
    kHorizonCAR_spec (fun i => i) strictMono_id (fun i => (i : ℚ))
      (fun _ => (1 : ℚ)) 2 3 30 10 4 20 (by decide)⟩

/-- C5: a ticker whose inner-joined estimation-window sample is empty
yields no market-model parameters and contributes no summary or panel
rows, and the batch is not aborted: the loop's output over
`ts1 ++ t :: ts2` is the output over `ts1` followed by the output over
`ts2`, so every remaining ticker is processed exactly as before. -/
theorem empty_est_sample_skipped (dates : ℕ → ℕ) (ret : ℕ → ℕ → Option ℚ)
    (retM : ℕ → Option ℚ) (n evIdx preDays postDays k1 k2 : ℕ)
    (t : ℕ) (ts1 ts2 : List ℕ)
    (h : estSample (ret t) retM (estWindowIdx evIdx preDays) = []) :
    processAll dates ret retM n evIdx preDays postDays k1 k2 (ts1 ++ t :: ts2) =
      ((processAll dates ret retM n evIdx preDays postDays k1 k2 ts1).1 ++
        (processAll dates ret retM n evIdx preDays postDays k1 k2 ts2).1,
       (processAll dates ret retM n evIdx preDays postDays k1 k2 ts1).2 ++
        (processAll dates ret retM n evIdx preDays postDays k1 k2 ts2).2) := by
  have hnone :
      processTicker dates ret retM n evIdx preDays postDays k1 k2 t = none := by
    simp only [processTicker, h]
    rfl
  simp [processAll, List.filterMap_append, List.filterMap_cons, hnone]

/-- Witness for C5: ticker 5 has no return data (empty estimation
sample) while tickers 7 and 9 are processed on either side of it. -/
theorem empty_est_sample_skipped_witness :
    estSample ((fun t _ => if t = 5 then none else some (1 : ℚ)) 5)
        (fun i => some (i : ℚ)) (estWindowIdx 23 1) = [] ∧
    processAll (fun i => i) (fun t _ => if t = 5 then none else some (1 : ℚ))
        (fun i => some (i : ℚ)) 25 23 1 0 5 10 ([7] ++ 5 :: [9]) =
      ((processAll (fun i => i) (fun t _ => if t = 5 then none else some (1 : ℚ))
          (fun i => some (i : ℚ)) 25 23 1 0 5 10 [7]).1 ++
        (processAll (fun i => i) (fun t _ => if t = 5 then none else some (1 : ℚ))
          (fun i => some (i : ℚ)) 25 23 1 0 5 10 [9]).1,
       (processAll (fun i => i) (fun t _ => if t = 5 then none else some (1 : ℚ))
          (fun i => some (i : ℚ)) 25 23 1 0 5 10 [7]).2 ++
        (processAll (fun i => i) (fun t _ => if t = 5 then none else some (1 : ℚ))
          (fun i => some (i : ℚ)) 25 23 1 0 5 10 [9]).2) :=
  ⟨by decide,
    empty_est_sample_skipped (fun i => i)
      (fun t _ => if t = 5 then none else some (1 : ℚ)) (fun i => some (i : ℚ))
      25 23 1 0 5 10 5 [7] [9] (by decide)⟩

/-- C7: `compute_macro_shocks` raises the documented fatal error —
`none` here, the `SystemExit` — exactly when the pre-window or the
post-window has zero observations, never returning a silent NaN;
otherwise it returns, for each of Brent, VIX and INR, the change of
the post-window mean against the pre-window mean divided by the
pre-window mean. -/
theorem computeGlobalShocks_spec (rows : List MarketRow) (ev kPre kPost : ℕ) :
    (computeGlobalShocks rows ev kPre kPost = none ↔
      preWindow rows ev kPre = [] ∨ postWindow rows ev kPost = []) ∧
    (preWindow rows ev kPre ≠ [] → postWindow rows ev kPost ≠ [] →
      computeGlobalShocks rows ev kPre kPost = some
        ((mean ((postWindow rows ev kPost).map (fun r => r.bz)) -
            mean ((preWindow rows ev kPre).map (fun r => r.bz))) /
          mean ((preWindow rows ev kPre).map (fun r => r.bz)),
         (mean ((postWindow rows ev kPost).map (fun r => r.vix)) -
            mean ((preWindow rows ev kPre).map (fun r => r.vix))) /
          mean ((preWindow rows ev kPre).map (fun r => r.vix)),
         (mean ((postWindow rows ev kPost).map (fun r => r.inr)) -
            mean ((preWindow rows ev kPre).map (fun r => r.inr))) /
          mean ((preWindow rows ev kPre).map (fun r => r.inr)))) := by
  constructor
  · by_cases h : preWindow rows ev kPre = [] ∨ postWindow rows ev kPost = []
    · simp [computeGlobalShocks, h]
    · simp [computeGlobalShocks, h]
  · intro h1 h2
    rw [computeGlobalShocks]
    rw [if_neg (by tauto)]

/-- Witness for C7 at a concrete two-row market panel. -/
theorem computeGlobalShocks_spec_witness :
    preWindow [⟨1, 2, 3, 4⟩, ⟨5, 6, 7, 8⟩] 3 1 ≠ [] ∧
    postWindow [⟨1, 2, 3, 4⟩, ⟨5, 6, 7, 8⟩] 3 1 ≠ [] ∧
    computeGlobalShocks [⟨1, 2, 3, 4⟩, ⟨5, 6, 7, 8⟩] 3 1 1 = some
      ((mean ((postWindow [⟨1, 2, 3, 4⟩, ⟨5, 6, 7, 8⟩] 3 1).map (fun r => r.bz)) -
          mean ((preWindow [⟨1, 2, 3, 4⟩, ⟨5, 6, 7, 8⟩] 3 1).map (fun r => r.bz))) /
        mean ((preWindow [⟨1, 2, 3, 4⟩, ⟨5, 6, 7, 8⟩] 3 1).map (fun r => r.bz)),
       (mean ((postWindow [⟨1, 2, 3, 4⟩, ⟨5, 6, 7, 8⟩] 3 1).map (fun r => r.vix)) -
          mean ((preWindow [⟨1, 2, 3, 4⟩, ⟨5, 6, 7, 8⟩] 3 1).map (fun r => r.vix))) /
        mean ((preWindow [⟨1, 2, 3, 4⟩, ⟨5, 6, 7, 8⟩] 3 1).map (fun r => r.vix)),
       (mean ((postWindow [⟨1, 2, 3, 4⟩, ⟨5, 6, 7, 8⟩] 3 1).map (fun r => r.inr)) -
          mean ((preWindow [⟨1, 2, 3, 4⟩, ⟨5, 6, 7, 8⟩] 3 1).map (fun r => r.inr))) /
        mean ((preWindow [⟨1, 2, 3, 4⟩, ⟨5, 6, 7, 8⟩] 3 1).map (fun r => r.inr))) :=
  ⟨by decide, by decide,
    (computeGlobalShocks_spec [⟨1, 2, 3, 4⟩, ⟨5, 6, 7, 8⟩] 3 1 1).2
      (by decide) (by decide)⟩

/-- C8: bootstrap reproducibility — the result of `bootstrap_ci`
depends only on the data, `n_boot`, `ci` and the seed, for any
generator implementation: the ambient random state the interpreter
carries into the call is never consulted, because the resampling
generator is freshly constructed from the fixed seed inside the call,
so two calls with identical arguments return exactly the same
`(mean, lower, upper)` triple. -/
theorem bootstrap_ci_reproducible {G : Type} (g1 g2 : G) (init : ℕ → G)
    (draw : G → ℕ → ℕ × G) (data : List (Option ℚ)) (nBoot : ℕ) (ci : ℚ)
    (seed : ℕ) :
    bootstrap_ci g1 init draw data nBoot ci seed =
      bootstrap_ci g2 init draw data nBoot ci seed := rfl

/-- C9 counterexample: no per-row degraded-quality tag exists.  On a
panel where the GARCH fit fails everywhere (`archFit` constantly
`none`), the written per-ticker summary rows are identical to those of
a run where every fit succeeds with the very same sigma values: only
the global `used_garch_any` flag — which drives a single batch-level
warning, not a row tag — distinguishes the two runs, refuting the
claim that the affected output row is tagged as degraded quality. -/
theorem garch_fallback_no_tag_counterexample :
    (volRows (fun _ => none) (fun _ => (0 : ℚ)) (fun _ => none) (fun _ => 0)
        samplePanel 10).1 =
      (volRows (fun _ => some 0) (fun _ => (0 : ℚ))
        (fun _ => none) (fun _ => 0) samplePanel 10).1 ∧
    (volRows (fun _ => none) (fun _ => (0 : ℚ)) (fun _ => none) (fun _ => 0)
        samplePanel 10).2 = false ∧
    (volRows (fun _ => some 0) (fun _ => (0 : ℚ))
        (fun _ => none) (fun _ => 0) samplePanel 10).2 = true := by
  with_unfolding_all decide

/-- C9 amended: whenever the preferred GARCH(1,1) fit is unavailable or
fails (an `archFit` that always returns `none`), the sample standard
deviation of each segment is substituted as its volatility estimate and
the batch completes — every qualifying ticker still gets its summary
row — but no row is tagged as degraded: only the global
`used_garch_any` flag (here `false`) records that the fallback was
used, driving a single batch-level warning. -/
theorem garch_fallback_spec (sqrtA : ℚ → ℚ) (meta : ℕ → Option ℕ)
    (expo : ℕ → ℕ) (panel : List ArRow) (ev : ℕ) :
    (volRows (fun _ => none) sqrtA meta expo panel ev).1 =
      (panelTickers panel).filterMap (fun t =>
        if (preObs panel ev t).length < 5 ∨ (postObs panel ev t).length < 5
        then none
        else some
          { ticker := t, sector := meta t, exposure_group := expo t,
            pre_mean_sigma :=
              sampleStd sqrtA ((preObs panel ev t).map (fun x => x.2.2)),
            post_mean_sigma :=
              sampleStd sqrtA ((postObs panel ev t).map (fun x => x.2.2)),
            delta_sigma :=
              sampleStd sqrtA ((postObs panel ev t).map (fun x => x.2.2)) -
                sampleStd sqrtA ((preObs panel ev t).map (fun x => x.2.2)) }) ∧
    (volRows (fun _ => none) sqrtA meta expo panel ev).2 = false := by
  constructor
  · rw [volRows]
    rw [List.map_filterMap]
    apply List.filterMap_congr
    intro t ht
    by_cases hc : (preObs panel ev t).length < 5 ∨
        (postObs panel ev t).length < 5
    · simp [processVolTicker, hc]
    · simp [processVolTicker, hc, estimate_garch_sigma_mean]
  · rw [volRows]
    rw [List.any_eq_false]
    intro x hx
    obtain ⟨t, ht, hft⟩ := List.mem_filterMap.mp hx
    by_cases hc : (preObs panel ev t).length < 5 ∨
        (postObs panel ev t).length < 5
    · rw [processVolTicker, if_pos hc] at hft
      exact absurd hft (by simp)
    · rw [processVolTicker, if_neg hc] at hft
      have hx2 := Option.some.inj hft
      rw [← hx2]
      simp [estimate_garch_sigma_mean]

/-- C10: the volatility stage fails fatally — `none`, and no summary is
written — exactly when every panel ticker has fewer than 5 pre-event or
fewer than 5 post-event observations; equivalently, every row of a
written summary comes from a ticker with at least 5 observations on
each side of the event date. -/
theorem volSummary_spec (archFit : List ℚ → Option ℚ) (sqrtA : ℚ → ℚ)
    (meta : ℕ → Option ℕ) (expo : ℕ → ℕ) (panel : List ArRow) (ev : ℕ) :
    (volSummary archFit sqrtA meta expo panel ev = none ↔
      ∀ t ∈ panelTickers panel,
        (preObs panel ev t).length < 5 ∨ (postObs panel ev t).length < 5) ∧
    (∀ rows, volSummary archFit sqrtA meta expo panel ev = some rows →
      ∀ r ∈ rows, 5 ≤ (preObs panel ev r.ticker).length ∧
        5 ≤ (postObs panel ev r.ticker).length) := by
  have hnone : ∀ t, processVolTicker archFit sqrtA meta expo panel ev t = none
      ↔ (preObs panel ev t).length < 5 ∨ (postObs panel ev t).length < 5 := by
    intro t
    by_cases h : (preObs panel ev t).length < 5 ∨
        (postObs panel ev t).length < 5
    · simp [processVolTicker, h]
    · simp [processVolTicker, h]
  have hkey : (volRows archFit sqrtA meta expo panel ev).1 = [] ↔
      ∀ t ∈ panelTickers panel,
        (preObs panel ev t).length < 5 ∨ (postObs panel ev t).length < 5 := by
    rw [volRows]
    rw [List.map_eq_nil_iff, List.filterMap_eq_nil_iff]
    constructor
    · intro h t ht
      exact (hnone t).mp (h t ht)
    · intro h t ht
      exact (hnone t).mpr (h t ht)
  constructor
  · rw [volSummary]
    by_cases hr : (volRows archFit sqrtA meta expo panel ev).1 = []
    · rw [if_pos hr]
      exact ⟨fun _ => hkey.mp hr, fun _ => rfl⟩
    · rw [if_neg hr]
      constructor
      · intro hc
        exact absurd hc (Option.some_ne_none _)
      · intro hall
        exact absurd (hkey.mpr hall) hr
  · intro rows hsome r hr
    rw [volSummary] at hsome
    by_cases h0 : (volRows archFit sqrtA meta expo panel ev).1 = []
    · rw [if_pos h0] at hsome
      exact absurd hsome (by simp)
    · rw [if_neg h0] at hsome
      have hrows := Option.some.inj hsome
      rw [← hrows] at hr
      rw [volRows] at hr
      obtain ⟨x, hx, hxr⟩ := List.mem_map.mp hr
      obtain ⟨t, ht, hft⟩ := List.mem_filterMap.mp hx
      by_cases hc : (preObs panel ev t).length < 5 ∨
          (postObs panel ev t).length < 5
      · rw [processVolTicker, if_pos hc] at hft
        exact absurd hft (by simp)
      · rw [processVolTicker, if_neg hc] at hft
        have hx2 := Option.some.inj hft
        have hticker : r.ticker = t := by
          rw [← hxr, ← hx2]
        push_neg at hc
        rw [hticker]
        exact ⟨hc.1, hc.2⟩

/-- Witness for C10: on the sample panel the summary is written and its
first row's ticker has five observations on each side of the event. -/
theorem volSummary_spec_witness :
    volSummary (fun _ => none) (fun _ => (0 : ℚ)) (fun _ => none) (fun _ => 0)
        samplePanel 10 =
      some ((volRows (fun _ => none) (fun _ => (0 : ℚ)) (fun _ => none)
        (fun _ => 0) samplePanel 10).1) ∧
    (5 ≤ (preObs samplePanel 10
        (((volRows (fun _ => none) (fun _ => (0 : ℚ)) (fun _ => none) (fun _ => 0)
          samplePanel 10).1.getD 0 ⟨0, none, 0, 0, 0, 0⟩).ticker)).length ∧
      5 ≤ (postObs samplePanel 10
        (((volRows (fun _ => none) (fun _ => (0 : ℚ)) (fun _ => none) (fun _ => 0)
          samplePanel 10).1.getD 0 ⟨0, none, 0, 0, 0, 0⟩).ticker)).length) :=
  ⟨by with_unfolding_all decide,
    (volSummary_spec (fun _ => none) (fun _ => (0 : ℚ)) (fun _ => none) (fun _ => 0)
        samplePanel 10).2
      ((volRows (fun _ => none) (fun _ => (0 : ℚ)) (fun _ => none) (fun _ => 0)
        samplePanel 10).1) (by with_unfolding_all decide)
      (((volRows (fun _ => none) (fun _ => (0 : ℚ)) (fun _ => none) (fun _ => 0)
        samplePanel 10).1.getD 0 ⟨0, none, 0, 0, 0, 0⟩)) (by with_unfolding_all decide)⟩

/-- Witness for C1 at a concrete event window and return functions. -/
theorem car_running_sum_witness :
    ∃ h : 1 < (carSeries (fun i => (i : ℚ)) (fun _ => (1 : ℚ)) 0 1 [3, 4, 5]).length,
      (carSeries (fun i => (i : ℚ)) (fun _ => (1 : ℚ)) 0 1 [3, 4, 5]).get ⟨1, h⟩ =
        ((arSeries (fun i => (i : ℚ)) (fun _ => (1 : ℚ)) 0 1 [3, 4, 5]).take 2).sum :=
  ⟨by decide,
    (car_running_sum (fun i => (i : ℚ)) (fun _ => (1 : ℚ)) 0 1 [3, 4, 5]).1 1 (by decide)⟩
